import Mathlib

/-!
Shallow embedding of the runhouse HTTP dispatch server
(`runhouse/servers/http/http_server.py`) together with the pieces of the
per-environment servlet layer it drives.  Wire types (`OutputType`,
`Response`, `Message`) follow `http_utils`; the generator
`_get_results_and_logs_generator` and `_get_object_and_logs_generator`
are embedded as pure functions over explicit traces of poll events and
log-file activity; the environment registry `get_env_servlet` is embedded
as a state-passing function, with a small interleaving machine for the
concurrent double-creation scenario.
-/

namespace Runhouse

/-- Output types of a `Response`, as used by the server:
`RESULT` (terminal success), `RESULT_STREAM` (non-terminal chunk),
`STDOUT` (batch of log lines), `EXCEPTION` (terminal failure). -/
inductive OutputType where
  | RESULT
  | RESULT_STREAM
  | STDOUT
  | EXCEPTION
deriving DecidableEq, Repr

/-- Payload of a `Response`: either a pickled/opaque value (`pickle_b64`
in the code) or a raw batch of log lines (the `data=ret_lines` case). -/
inductive Payload where
  | pickled (s : String)
  | lines (ls : List String)
deriving DecidableEq, Repr

/-- The reply envelope (`Response` in `http_utils`): `data` on success,
`error`/`traceback` on failure, and an `output_type`. -/
structure Response where
  data : Option Payload := none
  error : Option String := none
  traceback : Option String := none
  output_type : OutputType
deriving DecidableEq, Repr

/-- A `STDOUT` response carrying one batch of log lines
(`Response(data=ret_lines, output_type=OutputType.STDOUT)`). -/
def stdoutResp (ls : List String) : Response :=
  { data := some (Payload.lines ls), output_type := OutputType.STDOUT }

/-- A non-terminal streamed chunk (`OutputType.RESULT_STREAM`). -/
def streamResp (x : String) : Response :=
  { data := some (Payload.pickled x), output_type := OutputType.RESULT_STREAM }

/-- A terminal success response (`OutputType.RESULT`). -/
def resultResp (x : String) : Response :=
  { data := some (Payload.pickled x), output_type := OutputType.RESULT }

/-- A terminal failure response
(`Response(error=pickle_b64(e), traceback=pickle_b64(...), output_type=OutputType.EXCEPTION)`). -/
def exceptionResp (e tb : String) : Response :=
  { error := some e, traceback := some tb, output_type := OutputType.EXCEPTION }

/-- A response is terminal when its output type is `RESULT` or `EXCEPTION`. -/
def isTerminal (r : Response) : Prop :=
  r.output_type = OutputType.RESULT ∨ r.output_type = OutputType.EXCEPTION

instance (r : Response) : Decidable (isTerminal r) := by
  unfold isTerminal; infer_instance

/-- The request envelope (`Message` in `http_utils`), with the fields the
server consumes: `key`, `env`, `data`, `stream_logs`, `save`, `remote`. -/
structure Message where
  key : Option String := none
  env : Option String := none
  data : Option String := none
  stream_logs : Bool := false
  save : Bool := false
  remote : Bool := false
deriving DecidableEq, Repr

/-- First-match association-list lookup (python `dict` access, with the
convention that the most recent binding is at the head). -/
def alookup {α : Type} : List (String × α) → String → Option α
  | [], _ => none
  | (k, v) :: rest, n => if k = n then some v else alookup rest n

/-! ### Object store (per Environment)

The store itself lives in the servlet / `obj_store` module, which is not
part of the dispatch-server file; the server only calls `put_object` /
`get` on it. -/

/-- Modelled from the spec: the per-Environment keyed object store
(`obj_store` in the servlet layer, not under the dispatch server file).
`put(key, value)` is an unconditional upsert that overwrites silently;
modelled by prepending, with `obj_get` reading the most recent binding. -/
def obj_put (st : List (String × String)) (k v : String) : List (String × String) :=
  (k, v) :: st

/-- Modelled from the spec: `get(key)` returns the current value bound to
`key`, or absent. -/
def obj_get (st : List (String × String)) (k : String) : Option String :=
  alookup st k

/-- Apply a list of later writes `(key, value)` in order. -/
def applyPuts (st : List (String × String)) : List (String × String) → List (String × String)
  | [] => st
  | (k, v) :: ws => applyPuts (obj_put st k v) ws

/-- The value of the last write to `k` in a write list, if any. -/
def lastWrite : List (String × String) → String → Option String
  | [], _ => none
  | (a, b) :: ws, k =>
    match lastWrite ws k with
    | some v => some v
    | none => if a = k then some b else none

/-! ### Environment registry (`get_env_servlet`, lines 98-122)

Shared server state: the `env_servlets` name→handle dict, plus the Ray
actor namespace (consulted atomically through `get_if_exists=True`) and
a fresh-actor counter standing for actual actor construction. -/

structure Shared where
  registry : List (String × Nat)
  actors : List (String × Nat)
  nextId : Nat
deriving DecidableEq, Repr

/-- `HTTPServer.get_env_servlet(env_name, create)`: return the registered
handle if present; else, when `create`, obtain the named actor (reusing an
existing one thanks to `get_if_exists=True`, otherwise constructing a new
one) and register it under `env_name` before returning; when not
`create`, raise "Environment ... does not exist". -/
def get_env_servlet (st : Shared) (env_name : String) (create : Bool) :
    Except String Nat × Shared :=
  match alookup st.registry env_name with
  | some h => (Except.ok h, st)
  | none =>
    if create then
      match alookup st.actors env_name with
      | some a => (Except.ok a, { st with registry := (env_name, a) :: st.registry })
      | none =>
        (Except.ok st.nextId,
          { registry := (env_name, st.nextId) :: st.registry,
            actors := (env_name, st.nextId) :: st.actors,
            nextId := st.nextId + 1 })
    else
      (Except.error
        ("Environment " ++ env_name ++ " does not exist. Please send it to the cluster first."),
       st)

/-! ### Interleaving machine for two concurrent `get_env_servlet("base", create=True)` calls

Each call takes three atomic steps: check the registry dict, obtain the
actor (one atomic Ray call thanks to `get_if_exists=True`), register the
handle in the dict.  Any interleaving of the two callers is a schedule. -/

def baseName : String := "base"

/-- Program counter of one in-flight `get_env_servlet("base", create=True)`. -/
inductive TPC where
  | init
  | needActor
  | haveActor (a : Nat)
  | finished (h : Nat)
deriving DecidableEq, Repr

/-- One atomic step of a caller against the shared state. -/
def tstep (s : Shared) : TPC → Shared × TPC
  | TPC.init =>
    match alookup s.registry baseName with
    | some h => (s, TPC.finished h)
    | none => (s, TPC.needActor)
  | TPC.needActor =>
    match alookup s.actors baseName with
    | some a => (s, TPC.haveActor a)
    | none =>
      ({ s with actors := (baseName, s.nextId) :: s.actors, nextId := s.nextId + 1 },
       TPC.haveActor s.nextId)
  | TPC.haveActor a =>
    ({ s with registry := (baseName, a) :: s.registry }, TPC.finished a)
  | TPC.finished h => (s, TPC.finished h)

/-- Joint configuration: shared state plus the two callers. -/
structure Config where
  s : Shared
  t1 : TPC
  t2 : TPC
deriving DecidableEq, Repr

/-- Scheduler step: `true` steps caller 1, `false` steps caller 2. -/
def cstep (c : Config) : Bool → Config
  | true => ⟨(tstep c.s c.t1).1, (tstep c.s c.t1).2, c.t2⟩
  | false => ⟨(tstep c.s c.t2).1, c.t1, (tstep c.s c.t2).2⟩

/-- Run a schedule. -/
def crun (c : Config) : List Bool → Config
  | [] => c
  | b :: rest => crun (cstep c b) rest

/-- Drain both callers to completion (each needs at most three steps, and
stepping a finished caller is a no-op). -/
def cfinish (c : Config) : Config :=
  crun c [true, true, true, false, false, false]

/-- A fresh server: empty registry, no actors, no constructions yet. -/
def startConfig : Config := ⟨⟨[], [], 0⟩, TPC.init, TPC.init⟩

/-- A caller that has not yet acquired an actor handle. -/
def notStarted : TPC → Prop
  | TPC.init => True
  | TPC.needActor => True
  | _ => False

/-- A caller that, if holding a handle, holds actor `0`. -/
def holdsZero : TPC → Prop
  | TPC.init => True
  | TPC.needActor => True
  | TPC.haveActor a => a = 0
  | TPC.finished h => h = 0

/-- Invariant of the two-caller run from `startConfig`: either nothing has
been constructed yet, or exactly actor `0` exists and every acquired
handle refers to it. -/
def cinv (c : Config) : Prop :=
  (c.s.nextId = 0 ∧ c.s.actors = [] ∧ c.s.registry = [] ∧
    notStarted c.t1 ∧ notStarted c.t2)
  ∨ (c.s.nextId = 1 ∧ c.s.actors = [(baseName, 0)] ∧
    (∀ e ∈ c.s.registry, e = (baseName, 0)) ∧
    holdsZero c.t1 ∧ holdsZero c.t2)

/-! ### Message normalization in `call_module_method` (lines 200-212) -/

/-- `call_module_method`'s handling of the request envelope:
`message = message or Message(stream_logs=False, save=False)` followed by
`message.key = message.key or _generate_default_name(...)`, with `gen`
standing for the generated timestamp-based name. -/
def call_module_method_message (m : Option Message) (gen : String) : Message :=
  let msg := m.getD { stream_logs := false, save := false }
  { msg with key := some (msg.key.getD gen) }

/-! ### Dispatcher error capture (`call_in_env_servlet`, lines 135-158) -/

/-- `HTTPServer.call_in_env_servlet`: the inner servlet call either
returns a `Response` or raises; a raise is caught and converted into a
terminal `EXCEPTION` `Response` carrying the error and the formatted
traceback, never re-raised. -/
def call_in_env_servlet (inner : Except String Response) (tb : String) : Response :=
  match inner with
  | Except.ok r => r
  | Except.error e =>
    { error := some e, traceback := some tb, output_type := OutputType.EXCEPTION }

/-! ### Streaming multiplexer (`_get_results_and_logs_generator`, lines 273-341)

One loop iteration: poll the servlet result queue with a bounded timeout
(`ray.get(obj_ref, timeout=LOGGING_WAIT_TIME)`, with a `None` return
treated as a timeout), yield the polled `Response` if any, stop waiting
when its type is not `RESULT_STREAM`, then (when `stream_logs`) open any
newly appeared log files and yield the newly readable lines as a single
`STDOUT` batch.  A trace records, per iteration, the poll outcome, the
newly discovered log-file paths, and the newly readable log lines. -/

/-- Outcome of one bounded poll of the result queue: a timeout (also the
`ret_val is None` case, re-raised as `GetTimeoutError`) or a `Response`. -/
inductive PollEvent where
  | timeout
  | item (r : Response)
deriving DecidableEq, Repr

/-- One iteration of the multiplexer loop, as seen from outside. -/
structure MuxIter where
  ev : PollEvent
  newFiles : List String
  lines : List String
deriving DecidableEq, Repr

/-- `HTTPServer.open_new_logfiles` (lines 263-271): append any log file
not already open, deduplicated by path. -/
def openNewLogfiles (newFiles openFiles : List String) : List String :=
  openFiles ++ newFiles.filter (fun f => f ∉ openFiles)

/-- The `STDOUT` batch one iteration yields: nothing unless `stream_logs`
holds and some lines were read; otherwise one single batched response
(lines 311-325). -/
def stdoutBatch (sl : Bool) (lines : List String) : List Response :=
  if sl then (if lines.isEmpty then [] else [stdoutResp lines]) else []

/-- The multiplexer loop itself: given `stream_logs`, a trace of
iterations and the currently open log files, produce the yielded
`Response` sequence and the final open-file list.  A polled response is
yielded immediately; a non-`RESULT_STREAM` response ends the loop after
that iteration's log flush; a timeout falls through to the log flush. -/
def muxRun (sl : Bool) : List MuxIter → List String → List Response × List String
  | [], opens => ([], opens)
  | it :: rest, opens =>
    let opens' := if sl then openNewLogfiles it.newFiles opens else []
    match it.ev with
    | PollEvent.timeout =>
      (stdoutBatch sl it.lines ++ (muxRun sl rest opens').1, (muxRun sl rest opens').2)
    | PollEvent.item r =>
      if r.output_type = OutputType.RESULT_STREAM then
        (r :: (stdoutBatch sl it.lines ++ (muxRun sl rest opens').1), (muxRun sl rest opens').2)
      else
        (r :: stdoutBatch sl it.lines, opens')

/-- The responses the result queue delivered along a trace, in order. -/
def itemsOf (trace : List MuxIter) : List Response :=
  trace.filterMap (fun it =>
    match it.ev with
    | PollEvent.item r => some r
    | PollEvent.timeout => none)

/-- Drop the `STDOUT` log batches from a response stream. -/
def dropLogs (l : List Response) : List Response :=
  l.filter (fun r => if r.output_type = OutputType.STDOUT then false else true)

/-- Modelled from the spec: the servlet-side production
(`_get_result_from_stream` in the servlet layer, not under the dispatch
server file) for a callable returning a lazy sequence: one
`RESULT_STREAM` response per produced element, in order, then one
terminal `RESULT`. -/
def streamQueue (elems : List String) (fin : String) : List Response :=
  elems.map streamResp ++ [resultResp fin]

/-! ### Object fetch generator (`_get_object_and_logs_generator`, lines 372-427)

Loop: bounded-wait `get(key, LOGGING_WAIT_TIME)` against the servlet; on
`None`, flush logs (when `stream_logs`) and retry; on a response, flush
logs once more and then yield the fetched object.  A trace records, per
iteration, the servlet `get` outcome and the newly readable log lines. -/

def objGen (sl : Bool) : List (Option Response × List String) → List Response
  | [] => []
  | (res, lines) :: rest =>
    let logOut := if sl then (if lines.isEmpty then [] else [stdoutResp lines]) else []
    match res with
    | some r => logOut ++ [r]
    | none => logOut ++ objGen sl rest

/-- The log files `_get_object_and_logs_generator` opens: the key's log
files, but only when `stream_logs` (lines 392-401). -/
def objOpened (sl : Bool) (logfiles : List String) : List String :=
  if sl then logfiles else []
/-! ### Access control gate -/

/-- Access levels in the permission cache. -/
inductive AccessLevel where
  | none
  | read
  | write
deriving DecidableEq, Repr

/-- Modelled from the spec: the Access Control Gate
(`runhouse.servers.http.auth`, not under the dispatch-server file)
deciding whether `cred` may invoke a call on resource `res` living inside
Environment `env`: `write` access to the Environment suffices on its own;
otherwise explicit access to the target resource is required. -/
def authorize_invoke (lvl : String → String → AccessLevel)
    (cred res env : String) : Bool :=
  if lvl cred env = AccessLevel.write then true
  else if lvl cred res = AccessLevel.none then false
  else true

/-- Three consecutive own-steps of one caller. -/
def tmulti3 (s : Shared) (t : TPC) : Shared × TPC :=
  tstep (tstep (tstep s t).1 (tstep s t).2).1 (tstep (tstep s t).1 (tstep s t).2).2

/-! ### Concrete fixtures used to evaluate the definitions -/

/-- A permission table granting `write` on Environment `"E"` and nothing
else. -/
def lvlWriteOnEnv : String → String → AccessLevel :=
  fun _ r => if r = "E" then AccessLevel.write else AccessLevel.none

/-- A permission table granting `read` on Environment `"E"` and nothing
else. -/
def lvlReadOnEnv : String → String → AccessLevel :=
  fun _ r => if r = "E" then AccessLevel.read else AccessLevel.none

/-- A trace in which the queue delivers two streamed chunks and the
terminal `RESULT`, with a timeout and some log lines interleaved. -/
def traceTwoChunks : List MuxIter :=
  [⟨PollEvent.item (streamResp "x"), [], []⟩,
   ⟨PollEvent.timeout, [], ["l1"]⟩,
   ⟨PollEvent.item (streamResp "y"), [], []⟩,
   ⟨PollEvent.item (resultResp "z"), [], ["l2"]⟩]

/-- A trace in which the invoked callable raised: the queue delivers the
single terminal `EXCEPTION` response. -/
def traceExc : List MuxIter :=
  [⟨PollEvent.item (exceptionResp "boom" "tb"), [], ["l"]⟩]

/-- A trace in which the terminal `RESULT` arrives while log lines are
still pending, so the closing log flush follows the terminal. -/
def traceTermThenLog : List MuxIter :=
  [⟨PollEvent.item (resultResp "v"), [], ["log line"]⟩]

/-- A trace with log files and lines present, used with
`stream_logs=false`. -/
def traceNoLogs : List MuxIter :=
  [⟨PollEvent.item (streamResp "x"), ["f"], ["l"]⟩,
   ⟨PollEvent.item (resultResp "z"), [], ["l2"]⟩]

/-- An object-fetch trace: one miss with pending log lines, then the
object. -/
def objTraceW : List (Option Response × List String) :=
  [(none, ["l"]), (some (resultResp "w"), [])]

/-! ### Helper lemmas -/

theorem alookup_mem {α : Type} {l : List (String × α)} {n : String} {v : α}
    (h : alookup l n = some v) : (n, v) ∈ l := by
  induction l with
  | nil => simp [alookup] at h
  | cons p rest ih =>
    obtain ⟨k, w⟩ := p
    by_cases hk : k = n
    · subst hk
      simp [alookup] at h
      simp [h]
    · simp [alookup, hk] at h
      exact List.mem_cons_of_mem _ (ih h)

theorem obj_get_obj_put_self (st : List (String × String)) (k v : String) :
    obj_get (obj_put st k v) k = some v := by
  simp [obj_get, obj_put, alookup]

theorem obj_get_applyPuts {st : List (String × String)} {k v₀ : String}
    (ws : List (String × String)) (h : obj_get st k = some v₀) :
    obj_get (applyPuts st ws) k = some ((lastWrite ws k).getD v₀) := by
  induction ws generalizing st v₀ with
  | nil => simpa [applyPuts, lastWrite] using h
  | cons p ws ih =>
    obtain ⟨a, b⟩ := p
    by_cases hk : a = k
    · subst hk
      have hb : obj_get (obj_put st a b) a = some b := obj_get_obj_put_self st a b
      have := ih hb
      simp only [applyPuts]
      rw [this]
      cases hlw : lastWrite ws a with
      | none => simp [lastWrite, hlw]
      | some w => simp [lastWrite, hlw]
    · have hb : obj_get (obj_put st a b) k = some v₀ := by
        simpa [obj_get, obj_put, alookup, hk] using h
      have := ih hb
      simp only [applyPuts]
      rw [this]
      cases hlw : lastWrite ws k with
      | none => simp [lastWrite, hlw, hk]
      | some w => simp [lastWrite, hlw]

/-! ### Multiplexer lemmas -/

theorem muxRun_nil (sl : Bool) (opens : List String) :
    muxRun sl [] opens = ([], opens) := rfl

theorem muxRun_timeout (sl : Bool) (nf ls : List String) (rest : List MuxIter)
    (opens : List String) :
    muxRun sl (⟨PollEvent.timeout, nf, ls⟩ :: rest) opens =
      (stdoutBatch sl ls ++ (muxRun sl rest (if sl then openNewLogfiles nf opens else [])).1,
       (muxRun sl rest (if sl then openNewLogfiles nf opens else [])).2) := rfl

theorem muxRun_item_stream (sl : Bool) (q : Response) (nf ls : List String)
    (rest : List MuxIter) (opens : List String)
    (h : q.output_type = OutputType.RESULT_STREAM) :
    muxRun sl (⟨PollEvent.item q, nf, ls⟩ :: rest) opens =
      (q :: (stdoutBatch sl ls ++
          (muxRun sl rest (if sl then openNewLogfiles nf opens else [])).1),
       (muxRun sl rest (if sl then openNewLogfiles nf opens else [])).2) := by
  simp [muxRun, h]

theorem muxRun_item_stop (sl : Bool) (q : Response) (nf ls : List String)
    (rest : List MuxIter) (opens : List String)
    (h : q.output_type ≠ OutputType.RESULT_STREAM) :
    muxRun sl (⟨PollEvent.item q, nf, ls⟩ :: rest) opens =
      (q :: stdoutBatch sl ls, if sl then openNewLogfiles nf opens else []) := by
  simp [muxRun, h]

theorem itemsOf_nil : itemsOf [] = [] := rfl

theorem itemsOf_timeout (nf ls : List String) (rest : List MuxIter) :
    itemsOf (⟨PollEvent.timeout, nf, ls⟩ :: rest) = itemsOf rest := by
  simp [itemsOf]

theorem itemsOf_item (q : Response) (nf ls : List String) (rest : List MuxIter) :
    itemsOf (⟨PollEvent.item q, nf, ls⟩ :: rest) = q :: itemsOf rest := by
  simp [itemsOf]

theorem dropLogs_append (a b : List Response) :
    dropLogs (a ++ b) = dropLogs a ++ dropLogs b :=
  List.filter_append ..

theorem stdoutBatch_shape (sl : Bool) (ls : List String) :
    stdoutBatch sl ls = [] ∨ stdoutBatch sl ls = [stdoutResp ls] := by
  cases sl <;> by_cases h : ls.isEmpty <;> simp [stdoutBatch, h]

theorem mem_stdoutBatch {sl : Bool} {ls : List String} {r : Response}
    (h : r ∈ stdoutBatch sl ls) : r = stdoutResp ls ∧ sl = true := by
  cases sl with
  | false => simp [stdoutBatch] at h
  | true =>
    by_cases he : ls.isEmpty
    · simp [stdoutBatch, he] at h
    · simp [stdoutBatch, he] at h
      simp [h]

theorem dropLogs_stdoutBatch (sl : Bool) (ls : List String) :
    dropLogs (stdoutBatch sl ls) = [] := by
  rcases stdoutBatch_shape sl ls with h | h <;>
    simp [h, dropLogs, stdoutResp]

theorem dropLogs_cons_keep {r : Response} (l : List Response)
    (h : r.output_type ≠ OutputType.STDOUT) :
    dropLogs (r :: l) = r :: dropLogs l := by
  simp [dropLogs, h]

/-- Every response the multiplexer yields is either one the result queue
delivered or (only when `stream_logs`) a batched `STDOUT` log response. -/
theorem mux_mem {sl : Bool} :
    ∀ (trace : List MuxIter) (opens : List String) (r : Response),
    r ∈ (muxRun sl trace opens).1 →
    r ∈ itemsOf trace ∨ (sl = true ∧ ∃ ls, r = stdoutResp ls) := by
  intro trace
  induction trace with
  | nil => intro opens r h; simp [muxRun_nil] at h
  | cons it rest ih =>
    obtain ⟨ev, nf, ls⟩ := it
    intro opens r h
    cases ev with
    | timeout =>
      rw [muxRun_timeout] at h
      rw [itemsOf_timeout]
      rcases List.mem_append.mp h with hb | hr
      · obtain ⟨he, hsl⟩ := mem_stdoutBatch hb
        exact Or.inr ⟨hsl, ls, he⟩
      · exact ih _ r hr
    | item q =>
      rw [itemsOf_item]
      by_cases hq : q.output_type = OutputType.RESULT_STREAM
      · rw [muxRun_item_stream _ _ _ _ _ _ hq] at h
        rcases List.mem_cons.mp h with hqr | h
        · exact Or.inl (by simp [hqr])
        · rcases List.mem_append.mp h with hb | hr
          · obtain ⟨he, hsl⟩ := mem_stdoutBatch hb
            exact Or.inr ⟨hsl, ls, he⟩
          · rcases ih _ r hr with hi | hs
            · exact Or.inl (List.mem_cons_of_mem _ hi)
            · exact Or.inr hs
      · rw [muxRun_item_stop _ _ _ _ _ _ hq] at h
        rcases List.mem_cons.mp h with hqr | hb
        · exact Or.inl (by simp [hqr])
        · obtain ⟨he, hsl⟩ := mem_stdoutBatch hb
          exact Or.inr ⟨hsl, ls, he⟩

/-- Dropping the log batches from the multiplexer's output recovers
exactly the queue's responses, when the queue delivered a run of
`RESULT_STREAM` chunks followed by one non-stream, non-stdout terminal. -/
theorem mux_dropLogs {sl : Bool} :
    ∀ (trace : List MuxIter) (opens : List String) (qs : List Response) (t : Response),
    (∀ r ∈ qs, r.output_type = OutputType.RESULT_STREAM) →
    t.output_type ≠ OutputType.RESULT_STREAM →
    t.output_type ≠ OutputType.STDOUT →
    itemsOf trace = qs ++ [t] →
    dropLogs (muxRun sl trace opens).1 = qs ++ [t] := by
  intro trace
  induction trace with
  | nil =>
    intro opens qs t _ _ _ hit
    rw [itemsOf_nil] at hit
    exact absurd hit.symm (by simp)
  | cons it rest ih =>
    obtain ⟨ev, nf, ls⟩ := it
    intro opens qs t hqs ht hts hit
    cases ev with
    | timeout =>
      rw [itemsOf_timeout] at hit
      rw [muxRun_timeout, dropLogs_append, dropLogs_stdoutBatch]
      simpa using ih _ qs t hqs ht hts hit
    | item q =>
      rw [itemsOf_item] at hit
      cases qs with
      | nil =>
        simp only [List.nil_append] at hit ⊢
        have hqt : q = t := (List.cons_eq_cons.mp hit).1
        have hrest : itemsOf rest = [] := (List.cons_eq_cons.mp hit).2
        subst hqt
        rw [muxRun_item_stop _ _ _ _ _ _ ht, dropLogs_cons_keep _ hts,
          dropLogs_stdoutBatch]
      | cons q' qs' =>
        have hqq : q = q' := by simpa using (List.cons_eq_cons.mp hit).1
        have hrest : itemsOf rest = qs' ++ [t] := by
          simpa using (List.cons_eq_cons.mp hit).2
        subst hqq
        have hq : q.output_type = OutputType.RESULT_STREAM :=
          hqs q (List.mem_cons_self _ _)
        rw [muxRun_item_stream _ _ _ _ _ _ hq,
          dropLogs_cons_keep _ (by rw [hq]; intro hc; cases hc),
          dropLogs_append, dropLogs_stdoutBatch]
        simp only [List.nil_append, List.cons_append]
        rw [ih _ qs' t (fun r hr => hqs r (List.mem_cons_of_mem _ hr)) ht hts hrest]

theorem not_stream_not_stdout_terminal {q : Response}
    (h1 : q.output_type ≠ OutputType.RESULT_STREAM)
    (h2 : q.output_type ≠ OutputType.STDOUT) : isTerminal q := by
  unfold isTerminal
  cases hq : q.output_type with
  | RESULT => exact Or.inl rfl
  | EXCEPTION => exact Or.inr rfl
  | RESULT_STREAM => exact absurd hq h1
  | STDOUT => exact absurd hq h2

theorem stream_not_terminal {q : Response}
    (h : q.output_type = OutputType.RESULT_STREAM) : ¬ isTerminal q := by
  intro ht
  rcases ht with hr | hr <;> rw [h] at hr <;> cases hr

/-- Shape of the multiplexer's output: provided the queue delivers no
`STDOUT` responses and does deliver some terminal, the yielded stream is
a run of `RESULT_STREAM`/`STDOUT` responses, then the one terminal, then
at most one final `STDOUT` batch (that iteration's closing log flush). -/
theorem mux_shape {sl : Bool} :
    ∀ (trace : List MuxIter) (opens : List String),
    (∀ r ∈ itemsOf trace, r.output_type ≠ OutputType.STDOUT) →
    (∃ r ∈ itemsOf trace, isTerminal r) →
    ∃ a t b, (muxRun sl trace opens).1 = a ++ t :: b ∧ isTerminal t ∧
      (∀ r ∈ a, r.output_type = OutputType.RESULT_STREAM ∨
        r.output_type = OutputType.STDOUT) ∧
      (b = [] ∨ ∃ ls, b = [stdoutResp ls]) := by
  intro trace
  induction trace with
  | nil =>
    intro opens _ hex
    rw [itemsOf_nil] at hex
    simp at hex
  | cons it rest ih =>
    obtain ⟨ev, nf, ls⟩ := it
    intro opens hns hex
    cases ev with
    | timeout =>
      rw [itemsOf_timeout] at hns hex
      obtain ⟨a, t, b, hout, htt, ha, hb⟩ := ih _ hns hex
      refine ⟨stdoutBatch sl ls ++ a, t, b, ?_, htt, ?_, hb⟩
      · rw [muxRun_timeout, hout, List.append_assoc]
      · intro r hr
        rcases List.mem_append.mp hr with hrb | hra
        · exact Or.inr (by rw [(mem_stdoutBatch hrb).1]; rfl)
        · exact ha r hra
    | item q =>
      rw [itemsOf_item] at hns hex
      by_cases hq : q.output_type = OutputType.RESULT_STREAM
      · have hex' : ∃ r ∈ itemsOf rest, isTerminal r := by
          obtain ⟨r, hr, hrt⟩ := hex
          rcases List.mem_cons.mp hr with hrq | hrr
          · exact absurd hrt (hrq ▸ stream_not_terminal hq)
          · exact ⟨r, hrr, hrt⟩
        have hns' : ∀ r ∈ itemsOf rest, r.output_type ≠ OutputType.STDOUT :=
          fun r hr => hns r (List.mem_cons_of_mem _ hr)
        obtain ⟨a, t, b, hout, htt, ha, hb⟩ := ih _ hns' hex'
        refine ⟨q :: (stdoutBatch sl ls ++ a), t, b, ?_, htt, ?_, hb⟩
        · rw [muxRun_item_stream _ _ _ _ _ _ hq, hout]
          simp [List.append_assoc]
        · intro r hr
          rcases List.mem_cons.mp hr with hrq | hr'
          · exact Or.inl (hrq ▸ hq)
          · rcases List.mem_append.mp hr' with hrb | hra
            · exact Or.inr (by rw [(mem_stdoutBatch hrb).1]; rfl)
            · exact ha r hra
      · have hqs : q.output_type ≠ OutputType.STDOUT :=
          hns q (List.mem_cons_self _ _)
        refine ⟨[], q, stdoutBatch sl ls, ?_,
          not_stream_not_stdout_terminal hq hqs, by simp,
          (stdoutBatch_shape sl ls).imp (fun h => h) (fun h => ⟨ls, h⟩)⟩
        rw [muxRun_item_stop _ _ _ _ _ _ hq]
        simp

/-! ### Registry concurrency lemmas -/

theorem notStarted_holdsZero {t : TPC} (h : notStarted t) : holdsZero t := by
  cases t <;> simp [notStarted, holdsZero] at h ⊢

theorem cinv_swap {s : Shared} {t1 t2 : TPC} (h : cinv ⟨s, t1, t2⟩) :
    cinv ⟨s, t2, t1⟩ := by
  unfold cinv at h ⊢
  tauto

/-- One step of the first caller preserves the invariant. -/
theorem tstep_cinv (s : Shared) (t1 t2 : TPC) (h : cinv ⟨s, t1, t2⟩) :
    cinv ⟨(tstep s t1).1, (tstep s t1).2, t2⟩ := by
  rcases h with ⟨hn, ha, hr, h1, h2⟩ | ⟨hn, ha, hr, h1, h2⟩
  · -- nothing constructed yet
    cases t1 with
    | init =>
      have : alookup s.registry baseName = none := by rw [hr]; rfl
      simp only [tstep, this]
      exact Or.inl ⟨hn, ha, hr, trivial, h2⟩
    | needActor =>
      have hn' : s.nextId = 0 := hn
      have ha' : s.actors = [] := ha
      have hano : alookup s.actors baseName = none := by rw [ha']; rfl
      simp only [tstep, hano]
      refine Or.inr ⟨by simp [hn'], by simp [ha', hn'], ?_, hn',
        notStarted_holdsZero h2⟩
      intro e he
      rw [hr] at he
      cases he
    | haveActor a => cases h1
    | finished hh => cases h1
  · -- actor 0 exists; every handle refers to it
    cases t1 with
    | init =>
      rcases hh : alookup s.registry baseName with _ | x
      · simp only [tstep, hh]
        exact Or.inr ⟨hn, ha, hr, trivial, h2⟩
      · have hx : x = 0 := by
          have := alookup_mem hh
          have := hr _ this
          simpa using this
        simp only [tstep, hh]
        exact Or.inr ⟨hn, ha, hr, by simp [holdsZero, hx], h2⟩
    | needActor =>
      have hh : alookup s.actors baseName = some 0 := by
        rw [ha]; simp [alookup, baseName]
      simp only [tstep, hh]
      exact Or.inr ⟨hn, ha, hr, by simp [holdsZero], h2⟩
    | haveActor a =>
      have haz : a = 0 := h1
      simp only [tstep]
      refine Or.inr ⟨hn, ha, ?_, haz, h2⟩
      intro e he
      rcases List.mem_cons.mp he with he1 | he2
      · simp [he1, haz]
      · exact hr _ he2
    | finished hh =>
      simp only [tstep]
      exact Or.inr ⟨hn, ha, hr, h1, h2⟩

theorem cstep_cinv {c : Config} (b : Bool) (h : cinv c) : cinv (cstep c b) := by
  obtain ⟨s, t1, t2⟩ := c
  cases b with
  | true => exact tstep_cinv s t1 t2 h
  | false => exact cinv_swap (tstep_cinv s t2 t1 (cinv_swap h))

theorem crun_cinv {c : Config} (l : List Bool) (h : cinv c) : cinv (crun c l) := by
  induction l generalizing c with
  | nil => exact h
  | cons b rest ih => exact ih (cstep_cinv b h)

theorem startConfig_cinv : cinv startConfig :=
  Or.inl ⟨rfl, rfl, rfl, trivial, trivial⟩
theorem crun_ttt (c : Config) :
    crun c [true, true, true] = ⟨(tmulti3 c.s c.t1).1, (tmulti3 c.s c.t1).2, c.t2⟩ := rfl

theorem crun_fff (c : Config) :
    crun c [false, false, false] = ⟨(tmulti3 c.s c.t2).1, c.t1, (tmulti3 c.s c.t2).2⟩ := rfl

theorem cfinish_eq (c : Config) :
    cfinish c = crun (crun c [true, true, true]) [false, false, false] := rfl

/-- Any caller reaches `finished` within three own-steps. -/
theorem tmulti3_fin (s : Shared) (t : TPC) : ∃ h, (tmulti3 s t).2 = TPC.finished h := by
  cases t with
  | finished h => exact ⟨h, rfl⟩
  | haveActor a => exact ⟨a, rfl⟩
  | needActor =>
    rcases hh : alookup s.actors baseName with _ | a
    · exact ⟨s.nextId, by simp [tmulti3, tstep, hh]⟩
    · exact ⟨a, by simp [tmulti3, tstep, hh]⟩
  | init =>
    rcases hh : alookup s.registry baseName with _ | h
    · rcases ha : alookup s.actors baseName with _ | a
      · exact ⟨s.nextId, by simp [tmulti3, tstep, hh, ha]⟩
      · exact ⟨a, by simp [tmulti3, tstep, hh, ha]⟩
    · exact ⟨h, by simp [tmulti3, tstep, hh]⟩

/-- After any schedule followed by draining, both callers are finished and
hold the same handle, namely the one actor ever constructed. -/
theorem cfinish_same_handle (sched : List Bool) :
    (cfinish (crun startConfig sched)).t1 = TPC.finished 0 ∧
    (cfinish (crun startConfig sched)).t2 = TPC.finished 0 ∧
    (cfinish (crun startConfig sched)).s.nextId ≤ 1 := by
  set c := crun startConfig sched with hc
  have hinv : cinv (cfinish c) := by
    rw [cfinish_eq]
    exact crun_cinv _ (crun_cinv _ (crun_cinv _ startConfig_cinv))
  obtain ⟨h1, hfin1⟩ := tmulti3_fin c.s c.t1
  have ht1 : (crun c [true, true, true]).t1 = TPC.finished h1 := by
    rw [crun_ttt]; exact hfin1
  obtain ⟨h2, hfin2⟩ := tmulti3_fin (crun c [true, true, true]).s (crun c [true, true, true]).t2
  have hfin_t1 : (cfinish c).t1 = TPC.finished h1 := by
    rw [cfinish_eq, crun_fff]
    exact ht1
  have hfin_t2 : (cfinish c).t2 = TPC.finished h2 := by
    rw [cfinish_eq, crun_fff]
    exact hfin2
  rcases hinv with ⟨_, _, _, hns1, _⟩ | ⟨hn, _, _, hz1, hz2⟩
  · rw [hfin_t1] at hns1
    cases hns1
  · rw [hfin_t1] at hz1
    rw [hfin_t2] at hz2
    have e1 : h1 = 0 := hz1
    have e2 : h2 = 0 := hz2
    subst e1; subst e2
    exact ⟨hfin_t1, hfin_t2, by rw [hn]⟩


theorem filter_sub (p q : Response → Bool) (h : ∀ a, p a = true → q a = true) :
    ∀ l : List Response, (l.filter q).filter p = l.filter p := by
  intro l
  induction l with
  | nil => rfl
  | cons a l ih =>
    by_cases hq : q a = true
    · by_cases hp : p a = true <;> simp [List.filter_cons, hq, hp, ih]
    · have hp : ¬ p a = true := fun hpt => hq (h a hpt)
      simp [List.filter_cons, hq, hp, ih]

theorem mux_opens_false : ∀ trace : List MuxIter, (muxRun false trace []).2 = [] := by
  intro trace
  induction trace with
  | nil => rfl
  | cons it rest ih =>
    obtain ⟨ev, nf, ls⟩ := it
    cases ev with
    | timeout =>
      rw [muxRun_timeout]
      simpa using ih
    | item q =>
      by_cases hq : q.output_type = OutputType.RESULT_STREAM
      · rw [muxRun_item_stream _ _ _ _ _ _ hq]
        simpa using ih
      · rw [muxRun_item_stop _ _ _ _ _ _ hq]
        simp

theorem objGen_mem_false :
    ∀ (trace : List (Option Response × List String)) (r : Response),
    r ∈ objGen false trace → ∃ p ∈ trace, p.1 = some r := by
  intro trace
  induction trace with
  | nil => intro r h; cases h
  | cons p rest ih =>
    obtain ⟨res, lns⟩ := p
    intro r h
    cases res with
    | some q =>
      have hq : objGen false ((some q, lns) :: rest) = [q] := by simp [objGen]
      rw [hq] at h
      have he := List.mem_singleton.mp h
      exact ⟨(some q, lns), List.mem_cons_self _ _, by rw [he]⟩
    | none =>
      have hq : objGen false ((none, lns) :: rest) = objGen false rest := by
        simp [objGen]
      rw [hq] at h
      obtain ⟨p, hp, he⟩ := ih r h
      exact ⟨p, List.mem_cons_of_mem _ hp, he⟩

theorem stdout_not_terminal (ls : List String) : ¬ isTerminal (stdoutResp ls) := by
  intro h
  rcases h with h | h <;> cases h

/-! ### Claim theorems -/

/-- C1: for every key `k` and value `v`, `put(k, v)` then `get(k)` within
the same Environment returns `v`, and after any list of later writes it
returns the value of the last write to `k` (or `v` when none wrote `k`) —
never an earlier value and never absent. -/
theorem put_then_get_returns_latest (st : List (String × String)) (k v : String)
    (ws : List (String × String)) :
    obj_get (obj_put st k v) k = some v ∧
    obj_get (applyPuts (obj_put st k v) ws) k = some ((lastWrite ws k).getD v) :=
  ⟨obj_get_obj_put_self st k v, obj_get_applyPuts ws (obj_get_obj_put_self st k v)⟩

/-- C5: a credential with `write` access to an Environment may invoke a
resource inside it even with no per-resource access; a credential with
only `read` access to the Environment and no explicit access to the
resource is denied. -/
theorem cluster_write_invoke_access (lvl : String → String → AccessLevel)
    (cred res env : String) :
    (lvl cred env = AccessLevel.write → authorize_invoke lvl cred res env = true) ∧
    (lvl cred env = AccessLevel.read → lvl cred res = AccessLevel.none →
      authorize_invoke lvl cred res env = false) := by
  constructor
  · intro h
    simp [authorize_invoke, h]
  · intro h1 h2
    have hw : lvl cred env ≠ AccessLevel.write := by
      rw [h1]
      intro hc
      cases hc
    simp [authorize_invoke, hw, h2]

/-- C5 witness: with `write` on `"E"` only, invoking `"f"` inside `"E"` is
authorized; with `read` on `"E"` only, it is denied. -/
theorem cluster_write_invoke_access_witness :
    (lvlWriteOnEnv "c" "E" = AccessLevel.write ∧
      authorize_invoke lvlWriteOnEnv "c" "f" "E" = true) ∧
    (lvlReadOnEnv "c" "E" = AccessLevel.read ∧
      lvlReadOnEnv "c" "f" = AccessLevel.none ∧
      authorize_invoke lvlReadOnEnv "c" "f" "E" = false) :=
  ⟨⟨by decide, (cluster_write_invoke_access lvlWriteOnEnv "c" "f" "E").1 (by decide)⟩,
   ⟨by decide, by decide,
    (cluster_write_invoke_access lvlReadOnEnv "c" "f" "E").2 (by decide) (by decide)⟩⟩

/-- C6: `get_env_servlet` returns the already-registered handle when one
exists (state unchanged); otherwise, with `create`, it constructs exactly
one actor, registers it before returning, and a second call returns the
same handle without constructing another; and two concurrent
`getOrCreate("base")` calls, under every interleaving, both finish with a
handle to the same single actor, with at most one construction. -/
theorem get_or_create_idempotent :
    (∀ (st : Shared) (n : String) (h : Nat),
      alookup st.registry n = some h → get_env_servlet st n true = (Except.ok h, st)) ∧
    (∀ (st : Shared) (n : String),
      alookup st.registry n = none → alookup st.actors n = none →
      (get_env_servlet st n true).1 = Except.ok st.nextId ∧
      (get_env_servlet st n true).2.nextId = st.nextId + 1 ∧
      alookup (get_env_servlet st n true).2.registry n = some st.nextId ∧
      get_env_servlet (get_env_servlet st n true).2 n true =
        (Except.ok st.nextId, (get_env_servlet st n true).2)) ∧
    (∀ sched : List Bool,
      (cfinish (crun startConfig sched)).t1 = TPC.finished 0 ∧
      (cfinish (crun startConfig sched)).t2 = TPC.finished 0 ∧
      (cfinish (crun startConfig sched)).s.nextId ≤ 1) := by
  refine ⟨?_, ?_, cfinish_same_handle⟩
  · intro st n h hh
    simp [get_env_servlet, hh]
  · intro st n hr ha
    refine ⟨?_, ?_, ?_, ?_⟩ <;> simp [get_env_servlet, hr, ha, alookup]

/-- C6 witness: a registered name is returned as-is; from an empty server
a create-then-create sequence constructs once; a concrete alternating
schedule of the two concurrent callers yields one shared actor. -/
theorem get_or_create_idempotent_witness :
    (alookup (⟨[("base", 7)], [("base", 7)], 8⟩ : Shared).registry "base" = some 7 ∧
     get_env_servlet ⟨[("base", 7)], [("base", 7)], 8⟩ "base" true =
       (Except.ok 7, ⟨[("base", 7)], [("base", 7)], 8⟩)) ∧
    ((get_env_servlet ⟨[], [], 0⟩ "base" true).1 = Except.ok 0 ∧
     (get_env_servlet ⟨[], [], 0⟩ "base" true).2.nextId = 1 ∧
     alookup (get_env_servlet ⟨[], [], 0⟩ "base" true).2.registry "base" = some 0 ∧
     get_env_servlet (get_env_servlet ⟨[], [], 0⟩ "base" true).2 "base" true =
       (Except.ok 0, (get_env_servlet ⟨[], [], 0⟩ "base" true).2)) ∧
    ((cfinish (crun startConfig [true, false, true, false, true, false])).t1 =
       TPC.finished 0 ∧
     (cfinish (crun startConfig [true, false, true, false, true, false])).t2 =
       TPC.finished 0 ∧
     (cfinish (crun startConfig [true, false, true, false, true, false])).s.nextId ≤ 1) :=
  ⟨⟨rfl, get_or_create_idempotent.1 _ "base" 7 rfl⟩,
   get_or_create_idempotent.2.1 ⟨[], [], 0⟩ "base" rfl rfl,
   get_or_create_idempotent.2.2 [true, false, true, false, true, false]⟩

/-- C7: with `create=False`, `get_env_servlet` never mutates the registry;
an unregistered name fails with the environment-does-not-exist error, and
a registered name resolves to its existing handle. -/
theorem resolve_never_creates :
    (∀ (st : Shared) (n : String), (get_env_servlet st n false).2 = st) ∧
    (∀ (st : Shared) (n : String), alookup st.registry n = none →
      (get_env_servlet st n false).1 = Except.error
        ("Environment " ++ n ++ " does not exist. Please send it to the cluster first.")) ∧
    (∀ (st : Shared) (n : String) (h : Nat), alookup st.registry n = some h →
      (get_env_servlet st n false).1 = Except.ok h) := by
  refine ⟨?_, ?_, ?_⟩
  · intro st n
    rcases hh : alookup st.registry n with _ | h <;> simp [get_env_servlet, hh]
  · intro st n hh
    simp [get_env_servlet, hh]
  · intro st n h hh
    simp [get_env_servlet, hh]

/-- C7 witness: resolving a missing name errors without creating; a
registered name resolves. -/
theorem resolve_never_creates_witness :
    (get_env_servlet ⟨[], [], 0⟩ "missing" false).2 = (⟨[], [], 0⟩ : Shared) ∧
    (alookup ([] : List (String × Nat)) "missing" = none ∧
     (get_env_servlet ⟨[], [], 0⟩ "missing" false).1 = Except.error
       ("Environment " ++ "missing" ++ " does not exist. Please send it to the cluster first.")) ∧
    (alookup ([("base", 3)] : List (String × Nat)) "base" = some 3 ∧
     (get_env_servlet ⟨[("base", 3)], [], 1⟩ "base" false).1 = Except.ok 3) :=
  ⟨resolve_never_creates.1 ⟨[], [], 0⟩ "missing",
   ⟨rfl, resolve_never_creates.2.1 ⟨[], [], 0⟩ "missing" rfl⟩,
   ⟨rfl, resolve_never_creates.2.2 ⟨[("base", 3)], [], 1⟩ "base" 3 rfl⟩⟩

/-- C9 counterexample: the server mutates a constructed `Message`.  A
message constructed without a `key` comes back from `call_module_method`'s
normalization with its `key` field changed to the generated name, so the
fields of a `Message` are not all preserved by server processing. -/
theorem message_key_mutation_counterexample :
    call_module_method_message (some { stream_logs := true })
      "module_20230101_120000_000" ≠ ({ stream_logs := true } : Message) ∧
    (call_module_method_message (some { stream_logs := true })
      "module_20230101_120000_000").key = some "module_20230101_120000_000" ∧
    ({ stream_logs := true } : Message).key = none := by
  refine ⟨?_, rfl, rfl⟩
  intro h
  have hk := congrArg Message.key h
  simp [call_module_method_message] at hk

/-- C9 (amended): once constructed, a `Message` with a present `key` is
processed unchanged; the fields `env`, `data`, `stream_logs`, `save`,
`remote` are never modified; only an absent `key` is assigned the
generated name, once. -/
theorem message_fields_preserved (m : Message) (gen : String) :
    (∀ k, m.key = some k → call_module_method_message (some m) gen = m) ∧
    ((call_module_method_message (some m) gen).env = m.env ∧
      (call_module_method_message (some m) gen).data = m.data ∧
      (call_module_method_message (some m) gen).stream_logs = m.stream_logs ∧
      (call_module_method_message (some m) gen).save = m.save ∧
      (call_module_method_message (some m) gen).remote = m.remote) ∧
    (m.key = none → (call_module_method_message (some m) gen).key = some gen) := by
  refine ⟨?_, ⟨rfl, rfl, rfl, rfl, rfl⟩, ?_⟩
  · intro k hk
    cases m
    simp_all [call_module_method_message]
  · intro hk
    simp [call_module_method_message, hk]

/-- C9 witness: a message with a key is unchanged; one without gets the
generated key. -/
theorem message_fields_preserved_witness :
    (({ key := some "k", stream_logs := true } : Message).key = some "k" ∧
     call_module_method_message (some { key := some "k", stream_logs := true }) "gen" =
       { key := some "k", stream_logs := true }) ∧
    (({ } : Message).key = none ∧
     (call_module_method_message (some { }) "gen").key = some "gen") :=
  ⟨⟨rfl, (message_fields_preserved { key := some "k", stream_logs := true } "gen").1 "k" rfl⟩,
   ⟨rfl, (message_fields_preserved { } "gen").2.2 rfl⟩⟩

/-- C2: when the invoked callable returns a lazy sequence of `N` elements
the queue delivers one `RESULT_STREAM` per element then a terminal
`RESULT`, and the response stream for the call contains exactly those `N`
`RESULT_STREAM` responses in produced order followed by the one terminal
`RESULT` (log batches aside). -/
theorem lazy_sequence_streaming (elems : List String) (fin : String)
    (trace : List MuxIter) (sl : Bool) (opens : List String)
    (h : itemsOf trace = streamQueue elems fin) :
    dropLogs (muxRun sl trace opens).1 = streamQueue elems fin ∧
    ((muxRun sl trace opens).1.filter
      (fun r => if r.output_type = OutputType.RESULT_STREAM then true else false)).length =
      elems.length := by
  have hqs : ∀ r ∈ elems.map streamResp, r.output_type = OutputType.RESULT_STREAM := by
    intro r hr
    obtain ⟨x, _, rfl⟩ := List.mem_map.mp hr
    rfl
  have hmain : dropLogs (muxRun sl trace opens).1 = elems.map streamResp ++ [resultResp fin] :=
    mux_dropLogs trace opens (elems.map streamResp) (resultResp fin) hqs
      (by intro hc; cases hc) (by intro hc; cases hc) h
  refine ⟨hmain, ?_⟩
  have hsub : ∀ r : Response,
      (if r.output_type = OutputType.RESULT_STREAM then true else false) = true →
      (if r.output_type = OutputType.STDOUT then false else true) = true := by
    intro r hr
    by_cases hs : r.output_type = OutputType.RESULT_STREAM
    · rw [hs]
      simp
    · simp [hs] at hr
  have h1 := filter_sub _ _ hsub (muxRun sl trace opens).1
  have h2 : dropLogs (muxRun sl trace opens).1 =
      (muxRun sl trace opens).1.filter
        (fun r => if r.output_type = OutputType.STDOUT then false else true) := rfl
  rw [← h1, ← h2, hmain]
  rw [List.filter_append]
  have h3 : (elems.map streamResp).filter
      (fun r => if r.output_type = OutputType.RESULT_STREAM then true else false) =
      elems.map streamResp :=
    List.filter_eq_self.mpr (fun r hr => by simp [hqs r hr])
  have h4 : ([resultResp fin] : List Response).filter
      (fun r => if r.output_type = OutputType.RESULT_STREAM then true else false) = [] := by
    simp [resultResp]
  rw [h3, h4, List.append_nil, List.length_map]

/-- C2 witness: two streamed chunks then the terminal result, interleaved
with a timeout and log lines. -/
theorem lazy_sequence_streaming_witness :
    itemsOf traceTwoChunks = streamQueue ["x", "y"] "z" ∧
    (dropLogs (muxRun true traceTwoChunks []).1 = streamQueue ["x", "y"] "z" ∧
     ((muxRun true traceTwoChunks []).1.filter
       (fun r => if r.output_type = OutputType.RESULT_STREAM then true else false)).length =
       (["x", "y"] : List String).length) :=
  ⟨rfl, lazy_sequence_streaming ["x", "y"] "z" traceTwoChunks true [] rfl⟩

/-- C3 counterexample: the terminal `Response` is not always the last
element of the stream.  When the terminal `RESULT` is polled while log
lines are pending, the closing log flush yields a `STDOUT` response after
the terminal one. -/
theorem terminal_not_last_counterexample :
    (muxRun true traceTermThenLog []).1 = [resultResp "v", stdoutResp ["log line"]] ∧
    isTerminal (resultResp "v") ∧
    ¬ isTerminal (stdoutResp ["log line"]) := by
  refine ⟨?_, Or.inl rfl, stdout_not_terminal _⟩
  rfl

/-- C3 (amended): every response stream whose queue delivers no `STDOUT`
and delivers some terminal contains exactly one terminal response
(`RESULT` or `EXCEPTION`); every element before it is `RESULT_STREAM` or
`STDOUT`, and at most one `STDOUT` batch — the closing log flush — may
follow it. -/
theorem stream_terminal_shape (sl : Bool) (trace : List MuxIter) (opens : List String)
    (hns : ∀ r ∈ itemsOf trace, r.output_type ≠ OutputType.STDOUT)
    (hex : ∃ r ∈ itemsOf trace, isTerminal r) :
    ∃ a t b, (muxRun sl trace opens).1 = a ++ t :: b ∧ isTerminal t ∧
      (∀ r ∈ a, r.output_type = OutputType.RESULT_STREAM ∨
        r.output_type = OutputType.STDOUT) ∧
      (∀ r ∈ a, ¬ isTerminal r) ∧
      (b = [] ∨ ∃ ls, b = [stdoutResp ls]) ∧
      (∀ r ∈ b, ¬ isTerminal r) := by
  obtain ⟨a, t, b, hout, htt, ha, hb⟩ := mux_shape trace opens hns hex
  refine ⟨a, t, b, hout, htt, ha, ?_, hb, ?_⟩
  · intro r hr hterm
    rcases ha r hr with h1 | h1 <;>
      (rcases hterm with h2 | h2 <;> rw [h1] at h2 <;> cases h2)
  · intro r hr
    rcases hb with hb0 | ⟨ls, hb1⟩
    · rw [hb0] at hr
      cases hr
    · rw [hb1] at hr
      have he := List.mem_singleton.mp hr
      rw [he]
      exact stdout_not_terminal ls

/-- C3 witness: a stream with one chunk, one terminal and interleaved
logs has the guaranteed shape. -/
theorem stream_terminal_shape_witness :
    ((∀ r ∈ itemsOf traceTwoChunks, r.output_type ≠ OutputType.STDOUT) ∧
     (∃ r ∈ itemsOf traceTwoChunks, isTerminal r)) ∧
    (∃ a t b, (muxRun true traceTwoChunks []).1 = a ++ t :: b ∧ isTerminal t ∧
      (∀ r ∈ a, r.output_type = OutputType.RESULT_STREAM ∨
        r.output_type = OutputType.STDOUT) ∧
      (∀ r ∈ a, ¬ isTerminal r) ∧
      (b = [] ∨ ∃ ls, b = [stdoutResp ls]) ∧
      (∀ r ∈ b, ¬ isTerminal r)) :=
  ⟨⟨by decide, by decide⟩,
   stream_terminal_shape true traceTwoChunks [] (by decide) (by decide)⟩

/-- C4: a raising callable produces exactly one terminal `EXCEPTION`
response carrying the error and traceback and no `RESULT`: the dispatcher
converts the raise into an `EXCEPTION` `Response` instead of propagating
it, and the response stream for such a call contains the single
`EXCEPTION` terminal and no `RESULT` of any kind. -/
theorem exception_capture (e tb : String) :
    (call_in_env_servlet (Except.error e) tb).output_type = OutputType.EXCEPTION ∧
    (call_in_env_servlet (Except.error e) tb).error = some e ∧
    (call_in_env_servlet (Except.error e) tb).traceback = some tb ∧
    (call_in_env_servlet (Except.error e) tb).output_type ≠ OutputType.RESULT ∧
    (∀ (trace : List MuxIter) (sl : Bool) (opens : List String),
      itemsOf trace = [exceptionResp e tb] →
      dropLogs (muxRun sl trace opens).1 = [exceptionResp e tb] ∧
      ∀ r ∈ (muxRun sl trace opens).1, r.output_type ≠ OutputType.RESULT) := by
  refine ⟨rfl, rfl, rfl, ?_, ?_⟩
  · intro hc
    cases hc
  intro trace sl opens hit
  have hmain : dropLogs (muxRun sl trace opens).1 = [exceptionResp e tb] := by
    have := @mux_dropLogs sl trace opens [] (exceptionResp e tb)
      (by intro r hr; cases hr) (by intro hc; cases hc) (by intro hc; cases hc)
      (by simpa using hit)
    simpa using this
  refine ⟨hmain, ?_⟩
  intro r hr
  rcases mux_mem trace opens r hr with hi | ⟨_, ls, he⟩
  · rw [hit] at hi
    have := List.mem_singleton.mp hi
    rw [this]
    intro hc
    cases hc
  · rw [he]
    intro hc
    cases hc

/-- C4 witness: the queue delivering a lone `EXCEPTION` produces a stream
whose only non-log response is that `EXCEPTION` and which contains no
`RESULT`. -/
theorem exception_capture_witness :
    itemsOf traceExc = [exceptionResp "boom" "tb"] ∧
    (dropLogs (muxRun true traceExc []).1 = [exceptionResp "boom" "tb"] ∧
     ∀ r ∈ (muxRun true traceExc []).1, r.output_type ≠ OutputType.RESULT) :=
  ⟨rfl, (exception_capture "boom" "tb").2.2.2.2 traceExc true [] rfl⟩

/-- C8: a poll timeout is internal control flow only — the iteration
yields nothing for it, falls through to the log flush and continues —
and every response ever emitted is a queue response or a `STDOUT` log
batch, so a timeout is never emitted to the client. -/
theorem timeout_internal_only :
    (∀ (sl : Bool) (nf ls : List String) (rest : List MuxIter) (opens : List String),
      (muxRun sl (⟨PollEvent.timeout, nf, ls⟩ :: rest) opens).1 =
        stdoutBatch sl ls ++
          (muxRun sl rest (if sl then openNewLogfiles nf opens else [])).1) ∧
    (∀ (sl : Bool) (trace : List MuxIter) (opens : List String) (r : Response),
      r ∈ (muxRun sl trace opens).1 →
      r ∈ itemsOf trace ∨ ∃ ls, r = stdoutResp ls) := by
  constructor
  · intro sl nf ls rest opens
    rw [muxRun_timeout]
  · intro sl trace opens r hr
    rcases mux_mem trace opens r hr with hi | ⟨_, ls, he⟩
    · exact Or.inl hi
    · exact Or.inr ⟨ls, he⟩

/-- C8 witness: a lone timeout iteration yields only its log batch, and
that batch is accounted for as a `STDOUT` response. -/
theorem timeout_internal_only_witness :
    (muxRun true [⟨PollEvent.timeout, [], ["l"]⟩] []).1 =
      stdoutBatch true ["l"] ++
        (muxRun true [] (if true then openNewLogfiles [] [] else [])).1 ∧
    (stdoutResp ["l"] ∈ (muxRun true [⟨PollEvent.timeout, [], ["l"]⟩] []).1 ∧
     (stdoutResp ["l"] ∈ itemsOf [⟨PollEvent.timeout, [], ["l"]⟩] ∨
      ∃ ls, stdoutResp ["l"] = stdoutResp ls)) :=
  ⟨timeout_internal_only.1 true [] ["l"] [] [],
   ⟨by decide,
    timeout_internal_only.2 true [⟨PollEvent.timeout, [], ["l"]⟩] [] (stdoutResp ["l"])
      (by decide)⟩⟩

/-- C10: with `stream_logs=false`, the call stream contains only queue
responses (no `STDOUT` when the queue delivers none), no log files are
ever opened by either generator, and the object-fetch stream yields only
the fetched object. -/
theorem no_stdout_when_stream_logs_disabled :
    (∀ (trace : List MuxIter) (opens : List String) (r : Response),
      r ∈ (muxRun false trace opens).1 → r ∈ itemsOf trace) ∧
    (∀ (trace : List MuxIter) (opens : List String) (r : Response),
      (∀ q ∈ itemsOf trace, q.output_type ≠ OutputType.STDOUT) →
      r ∈ (muxRun false trace opens).1 → r.output_type ≠ OutputType.STDOUT) ∧
    (∀ trace : List MuxIter, (muxRun false trace []).2 = []) ∧
    (∀ logfiles : List String, objOpened false logfiles = []) ∧
    (∀ (trace : List (Option Response × List String)) (r : Response),
      r ∈ objGen false trace → ∃ p ∈ trace, p.1 = some r) := by
  have hmem : ∀ (trace : List MuxIter) (opens : List String) (r : Response),
      r ∈ (muxRun false trace opens).1 → r ∈ itemsOf trace := by
    intro trace opens r hr
    rcases mux_mem trace opens r hr with hi | ⟨hsl, _⟩
    · exact hi
    · cases hsl
  refine ⟨hmem, ?_, mux_opens_false, fun _ => rfl, objGen_mem_false⟩
  intro trace opens r hq hr
  exact hq r (hmem trace opens r hr)

/-- C10 witness: with `stream_logs=false` on a trace that has log files
and lines, the stream carries only queue responses, no files end up open,
and the object fetch yields just the object. -/
theorem no_stdout_when_stream_logs_disabled_witness :
    (streamResp "x" ∈ (muxRun false traceNoLogs []).1 ∧
     streamResp "x" ∈ itemsOf traceNoLogs) ∧
    ((∀ q ∈ itemsOf traceNoLogs, q.output_type ≠ OutputType.STDOUT) ∧
     (streamResp "x").output_type ≠ OutputType.STDOUT) ∧
    (muxRun false traceNoLogs []).2 = [] ∧
    objOpened false ["f1", "f2"] = [] ∧
    (resultResp "w" ∈ objGen false objTraceW ∧
     ∃ p ∈ objTraceW, p.1 = some (resultResp "w")) :=
  ⟨⟨by decide, no_stdout_when_stream_logs_disabled.1 traceNoLogs [] (streamResp "x") (by decide)⟩,
   ⟨by decide,
    no_stdout_when_stream_logs_disabled.2.1 traceNoLogs [] (streamResp "x")
      (by decide) (by decide)⟩,
   no_stdout_when_stream_logs_disabled.2.2.1 traceNoLogs,
   no_stdout_when_stream_logs_disabled.2.2.2.1 ["f1", "f2"],
   ⟨by decide,
    no_stdout_when_stream_logs_disabled.2.2.2.2 objTraceW (resultResp "w") (by decide)⟩⟩

end Runhouse
